import Mathlib

/-!
Shallow embedding of the Hotel Booking API's availability and booking
engine (`src/main.py`).

Modelling conventions:
* Calendar dates that the Python code handles as `datetime` values are
  modelled as `Int` day ordinals (days since an arbitrary epoch):
  `datetime` comparison is ordinal comparison, `timedelta(days = n)` is
  `+ n`, and `(checkout - checkin).days` is ordinal subtraction.
* A request's raw date string is modelled as `Option Int`: `none` stands
  for a string `datetime.strptime(_, "%Y-%m-%d")` rejects, `some d` for a
  string parsing to ordinal `d`.  Booking records only ever store dates
  that passed `parse_date`, so stored dates are plain ordinals.
* Python `int` fields are `Int`; `float` prices are modelled as `ℚ`.
* Email strings are lists of character codes (`List Nat`) so that
  Python's `str.lower()` (ASCII range) can be modelled per character.
* MongoDB collections are Lean lists in insertion order: `find_one`
  returns the first match, `insert_one` appends, `update_one` updates
  the first match, and `find_one(sort=[("booking_id", -1)])` returns a
  document of maximal `booking_id`.
-/

/-- `RoomType.capacity` from `main.py` (maxima for a party). -/
structure Capacity where
  adults : Int
  children : Int
deriving DecidableEq, Repr

/-- `RoomType.pricing`, restricted to the one field the booking engine
reads (`pricing["total_price"]`, the nightly rate). -/
structure Pricing where
  total_price : ℚ
deriving DecidableEq, Repr

/-- The fields of `RoomType` that the booking engine reads.
`room_numbers` is the declared list of physical units, in catalog order
(each Python element `{"room_no": n}` is modelled by its integer `n`). -/
structure RoomType where
  id : Int
  name : String
  capacity : Capacity
  min_days : Int
  max_days : Int
  pricing : Pricing
  room_numbers : List Int
deriving DecidableEq, Repr

/-- A document of the `Bookings` collection, exactly the record built at
`main.py:372-387`. `check_in_date`/`check_out_date` are stored as parsed
day ordinals (see module conventions), `created_at` is an opaque
timestamp, `status` is the literal Python string. -/
structure Booking where
  booking_id : Int
  room_type_id : Int
  room_name : String
  room_no : Int
  check_in_date : Int
  check_out_date : Int
  stay_days : Int
  user_name : String
  email : List Nat
  adults : Int
  children : Int
  status : String
  created_at : Nat
  total_price : ℚ
deriving DecidableEq, Repr

/-- The body of a `POST /bookings` request (`BookingRequest` in
`main.py`); the two date strings are modelled by their parse results. -/
structure BookingRequest where
  room_type_id : Int
  check_in_raw : Option Int
  check_out_raw : Option Int
  user_name : String
  email : List Nat
  adults : Int
  children : Int
deriving DecidableEq, Repr

/-- The persistent state the engine touches: the `RoomTypes` and
`Bookings` collections. -/
structure DB where
  roomTypes : List RoomType
  bookings : List Booking
deriving DecidableEq, Repr

/-- The rejection reasons `make_booking` can raise, in source order. -/
inductive BErr where
  | invalidDateFormat
  | pastDate
  | tooFarAhead
  | invalidRange
  | roomTypeNotFound
  | stayLength
  | capacityAdults
  | capacityChildren
  | notAvailable
  | noRoomsAvailable
deriving DecidableEq, Repr

/-- Python `str.lower()` on one character code, ASCII range. -/
def asciiLower (c : Nat) : Nat :=
  if 65 ≤ c ∧ c ≤ 90 then c + 32 else c

/-- The overlap test applied to one stored booking in both
`is_room_type_available` (main.py:198) and the selection loop of
`make_booking` (main.py:354): `db_ci < checkout_dt and db_co >= checkin_dt`. -/
def bookingBlocks (b : Booking) (checkin checkout : Int) : Bool :=
  decide (b.check_in_date < checkout) && decide (checkin ≤ b.check_out_date)

/-- Whether unit `rn` is free for `[checkin, checkout)`: no confirmed
booking on `rn` passes the overlap test (the cursor loop over
`find({"room_no": rn, "status": "confirmed"})`). -/
def roomFree (bs : List Booking) (rn : Int) (checkin checkout : Int) : Bool :=
  !(bs.any fun b =>
      b.room_no == rn && b.status == "confirmed" && bookingBlocks b checkin checkout)

/-- `is_room_type_available` (main.py:154-205): capacity gates, then
"some unit of this room type is free for the range". -/
def is_room_type_available (rt : RoomType) (bs : List Booking)
    (checkin checkout adults children : Int) : Bool :=
  if adults ≤ 0 then false
  else if children < 0 then false
  else if adults > rt.capacity.adults then false
  else if children > rt.capacity.children then false
  else rt.room_numbers.any fun rn => roomFree bs rn checkin checkout

/-- Result of the read phase of `make_booking`: the data the handler has
in hand after the selection loop, just before booking-id issuance. -/
structure SelInfo where
  rt : RoomType
  ci : Int
  co : Int
  stay : Int
  room : Int
deriving DecidableEq, Repr

/-- The read/validation phase of `make_booking` (main.py:289-363): date
parsing, clock-policy checks, room-type lookup, stay-length and capacity
checks, the `is_room_type_available` gate, and the first-free-unit
selection loop.  `if not selected_room:` is Python truthiness: it raises
"No rooms available" when `selected_room` is still `None` *or* is the
integer `0`. -/
def mbSelect (db : DB) (today : Int) (req : BookingRequest) :
    Except BErr SelInfo :=
  match req.check_in_raw with
  | none => .error .invalidDateFormat
  | some ci =>
    match req.check_out_raw with
    | none => .error .invalidDateFormat
    | some co =>
      if ci < today ∨ co < today then .error .pastDate
      else if ci > today + 30 ∨ co > today + 30 then .error .tooFarAhead
      else if co ≤ ci then .error .invalidRange
      else
        match db.roomTypes.find? (fun rt => rt.id == req.room_type_id) with
        | none => .error .roomTypeNotFound
        | some rt =>
          if co - ci < rt.min_days ∨ co - ci > rt.max_days then .error .stayLength
          else if req.adults > rt.capacity.adults then .error .capacityAdults
          else if req.children > rt.capacity.children then .error .capacityChildren
          else if ¬ (is_room_type_available rt db.bookings ci co req.adults req.children)
          then .error .notAvailable
          else
            match rt.room_numbers.find? (fun rn => roomFree db.bookings rn ci co) with
            | none => .error .noRoomsAvailable
            | some r =>
              if r = 0 then .error .noRoomsAvailable
              else .ok ⟨rt, ci, co, co - ci, r⟩

/-- `find_one(sort=[("booking_id", -1)])` followed by
`new_id = 1 if not last else last["booking_id"] + 1` (main.py:366-367). -/
def newBookingId (bs : List Booking) : Int :=
  match bs.map (fun b => b.booking_id) with
  | [] => 1
  | i :: is => is.foldl max i + 1

/-- The record dict built at main.py:372-387 (`email` is stored
lower-cased, `status` is `"confirmed"`, `total_price` is the nightly
rate times `stay_days`). -/
def mkRecord (now : Nat) (req : BookingRequest) (s : SelInfo) (nid : Int) :
    Booking :=
  { booking_id := nid
    room_type_id := s.rt.id
    room_name := s.rt.name
    room_no := s.room
    check_in_date := s.ci
    check_out_date := s.co
    stay_days := s.stay
    user_name := req.user_name
    email := req.email.map asciiLower
    adults := req.adults
    children := req.children
    status := "confirmed"
    created_at := now
    total_price := s.rt.pricing.total_price * (s.stay : ℚ) }

/-- `POST /bookings` (`make_booking`, main.py:286-393) run to completion
by one caller: read phase, then booking-id issuance and `insert_one`.
Every `raise HTTPException` path leaves the collections untouched. -/
def makeBooking (db : DB) (today : Int) (now : Nat) (req : BookingRequest) :
    DB × Except BErr Booking :=
  match mbSelect db today req with
  | .error e => (db, .error e)
  | .ok s =>
    let nid := newBookingId db.bookings
    let bkg := mkRecord now req s nid
    ({ db with bookings := db.bookings ++ [bkg] }, .ok bkg)

/-- Outcomes of `DELETE /bookings/{booking_id}`: the 404 or the success
message (main.py:424-431 has no other outcome). -/
inductive CancelResult where
  | ok
  | notFound
deriving DecidableEq, Repr

/-- `update_one({"booking_id": bid}, {"$set": {"status": "cancelled"}})`:
set the status of the first matching document to `"cancelled"`. -/
def cancelFirst (bid : Int) : List Booking → List Booking
  | [] => []
  | b :: bs =>
    if b.booking_id = bid then { b with status := "cancelled" } :: bs
    else b :: cancelFirst bid bs

/-- `cancel_booking` (main.py:424-431): `find_one` by id, 404 when
absent, otherwise flip the first match's status to cancelled and report
success.  There is no already-cancelled check in the source. -/
def cancelBooking (db : DB) (bid : Int) : DB × CancelResult :=
  if db.bookings.any (fun b => b.booking_id == bid) then
    ({ db with bookings := cancelFirst bid db.bookings }, .ok)
  else (db, .notFound)

/-- The error of `GET /bookings/email/{email}` when the filtered list is
empty (main.py:407-408). -/
inductive EmailErr where
  | noBookingsFound
deriving DecidableEq, Repr

/-- `get_bookings_by_email` (main.py:395-410): filter the collection by
`email == query.lower()` (exact match against the stored string), and
404 when the result list is empty. -/
def getBookingsByEmail (db : DB) (email : List Nat) :
    Except EmailErr (List Booking) :=
  if db.bookings.filter (fun b => decide (b.email = email.map asciiLower)) = [] then
    .error .noBookingsFound
  else .ok (db.bookings.filter (fun b => decide (b.email = email.map asciiLower)))

/-!
Date strings and the availability endpoint's filter.

`GET /room-types/available` (main.py:267-274) filters out a unit when a
confirmed booking matches
`{"check_in_date": {"$lt": check_out_date}, "check_out_date": {"$gte": check_in_date}}`
— a *string* comparison (MongoDB orders strings by their code units),
whereas `make_booking` and `is_room_type_available` parse the stored
strings with `strptime` and compare `datetime` values.  To compare the
two we model a calendar date as its year/month/day triple, its canonical
zero-padded `YYYY-MM-DD` serialization as the list of character codes,
and lexicographic string order on code lists.
-/

/-- A calendar date as the `(year, month, day)` triple `strptime`
produces; `datetime` comparison is lexicographic on this triple. -/
structure DateYMD where
  y : Nat
  m : Nat
  d : Nat
deriving DecidableEq, Repr

/-- Bounds under which the zero-padded serialization is well-formed
(every valid calendar date satisfies them). -/
def validYMD (a : DateYMD) : Prop :=
  a.y < 10000 ∧ a.m < 100 ∧ a.d < 100

/-- Two zero-padded decimal digits (character codes; 48 is `'0'`). -/
def pad2 (n : Nat) : List Nat :=
  [48 + n / 10, 48 + n % 10]

/-- Four zero-padded decimal digits (character codes). -/
def pad4 (n : Nat) : List Nat :=
  [48 + n / 1000, 48 + n / 100 % 10, 48 + n / 10 % 10, 48 + n % 10]

/-- The canonical `YYYY-MM-DD` serialization of a date, as character
codes (45 is `'-'`). -/
def serDate (a : DateYMD) : List Nat :=
  pad4 a.y ++ 45 :: (pad2 a.m ++ 45 :: pad2 a.d)

/-- Lexicographic strict order on code lists: MongoDB's `$lt` on the
stored date strings. -/
def strLt : List Nat → List Nat → Bool
  | _, [] => false
  | [], _ :: _ => true
  | a :: as, b :: bs =>
    if a < b then true else if a = b then strLt as bs else false

/-- `datetime` strict order on parsed dates: lexicographic on
`(y, m, d)`. -/
def dateLt (a b : DateYMD) : Bool :=
  if a.y < b.y then true
  else if a.y = b.y then
    if a.m < b.m then true
    else if a.m = b.m then decide (a.d < b.d)
    else false
  else false

/-- The availability endpoint's per-unit filter condition on one stored
booking (main.py:267-274): stored `check_in_date` `$lt` the requested
check-out string, and stored `check_out_date` `$gte` the requested
check-in string, both as string comparisons. -/
def strOverlapFilter (sci sco rci rco : List Nat) : Bool :=
  strLt sci rco && !(strLt sco rci)

/-- The booking path's overlap condition on parsed dates
(main.py:198 and main.py:354): parsed stored check-in `<` requested
check-out, and parsed stored check-out `>=` requested check-in. -/
def parsedOverlap (ci co rci rco : DateYMD) : Bool :=
  dateLt ci rco && !(dateLt co rci)

/-!
Concrete data used by counterexamples and witnesses.
-/

/-- A one-room-type catalog entry with two units, in catalog order. -/
def rtEx : RoomType :=
  ⟨1, "Deluxe", ⟨2, 1⟩, 1, 5, ⟨100⟩, [101, 102]⟩

/-- A well-formed booking request for `[12, 14)` (today = 10). -/
def reqEx : BookingRequest :=
  ⟨1, some 12, some 14, "alice", [65, 108], 1, 0⟩

/-- The booking `makeBooking ⟨[rtEx], []⟩ 10 7 reqEx` commits (the
price is left as the nightly rate times the 2-night stay). -/
def bkEx : Booking :=
  ⟨1, 1, "Deluxe", 101, 12, 14, 2, "alice", [97, 108], 1, 0, "confirmed", 7,
    100 * ((2 : Int) : ℚ)⟩

/-- A room type owning the single unit 201. -/
def rtOne : RoomType :=
  ⟨1, "Deluxe", ⟨2, 1⟩, 1, 5, ⟨100⟩, [201]⟩

/-- A confirmed booking of unit 201 for `[10, 12)`. -/
def bkPrior : Booking :=
  ⟨1, 1, "Deluxe", 201, 10, 12, 2, "bob", [98], 1, 0, "confirmed", 3, 200⟩

/-- Ledger state with unit 201 booked for `[10, 12)`: the back-to-back
request `reqEx` (`[12, 14)`) should succeed per the spec. -/
def dbBtb : DB := ⟨[rtOne], [bkPrior]⟩

/-- A room type whose only physical unit is numbered 0. -/
def rtZero : RoomType :=
  ⟨1, "Deluxe", ⟨2, 1⟩, 1, 5, ⟨100⟩, [0]⟩

/-- Catalog with unit 0 and an empty ledger: every unit is free. -/
def dbZero : DB := ⟨[rtZero], []⟩

/-- An already-cancelled booking with id 1. -/
def bkCancelled : Booking :=
  ⟨1, 1, "Deluxe", 201, 10, 12, 2, "bob", [98], 1, 0, "cancelled", 3, 200⟩

/-- Ledger whose only booking is already cancelled. -/
def dbCancelled : DB := ⟨[rtOne], [bkCancelled]⟩

/-- Initial state for the allocation race: one room type with the single
unit 201, empty ledger. -/
def raceDB : DB := ⟨[rtOne], []⟩

/-- One realizable event-loop interleaving of two concurrent
`make_booking` handlers A and B for the same request: A runs its read
phase (validation and unit selection, main.py:289-363) against the
initial state and suspends at the `await` of main.py:366; B then runs
its whole handler to completion; A resumes, reads the max booking id
from the state B committed, and inserts.  The result is the final
`Bookings` collection. -/
def raceFinal : DB :=
  match mbSelect raceDB 10 reqEx with
  | .error _ => raceDB
  | .ok sA =>
    let dbAfterB := (makeBooking raceDB 10 7 reqEx).1
    let nid := newBookingId dbAfterB.bookings
    { dbAfterB with bookings := dbAfterB.bookings ++ [mkRecord 7 reqEx sA nid] }

/-- The first booking the race interleaving commits (handler B's). -/
def raceBk1 : Booking :=
  ⟨1, 1, "Deluxe", 201, 12, 14, 2, "alice", [97, 108], 1, 0, "confirmed", 7,
    100 * ((2 : Int) : ℚ)⟩

/-- The second booking the race interleaving commits (handler A's):
same unit, same date range, distinct id. -/
def raceBk2 : Booking :=
  ⟨2, 1, "Deluxe", 201, 12, 14, 2, "alice", [97, 108], 1, 0, "confirmed", 7,
    100 * ((2 : Int) : ℚ)⟩

/-- A second well-formed request for `[12, 14)` from another guest. -/
def reqEx2 : BookingRequest :=
  ⟨1, some 12, some 14, "carol", [67], 2, 0⟩

/-- The booking the second sequential `makeBooking` call commits
(unit 102, id 2). -/
def bkEx2 : Booking :=
  ⟨2, 1, "Deluxe", 102, 12, 14, 2, "carol", [99], 2, 0, "confirmed", 8,
    100 * ((2 : Int) : ℚ)⟩

/-- A request whose check-in string does not parse as `YYYY-MM-DD`. -/
def reqBadDate : BookingRequest :=
  ⟨1, none, some 14, "alice", [65, 108], 1, 0⟩

/-- The spec's half-open overlap relation on stored bookings: two
confirmed bookings on one unit must not satisfy
`a.start < b.end AND b.start < a.end`.  `noConflict b1 b2` says the pair
`b1, b2` does not violate the invariant (cancelled bookings are
excluded). -/
def noConflict (b1 b2 : Booking) : Prop :=
  b1.status = "confirmed" → b2.status = "confirmed" → b1.room_no = b2.room_no →
    ¬(b1.check_in_date < b2.check_out_date ∧ b2.check_in_date < b1.check_out_date)

/-- Ledger states reachable by sequential `make_booking` /
`cancel_booking` calls from an empty `Bookings` collection, the room
type catalog `rts` held fixed. -/
inductive Reachable (rts : List RoomType) : List Booking → Prop where
  | init : Reachable rts []
  | book : ∀ {bs} (today : Int) (now : Nat) (req : BookingRequest),
      Reachable rts bs →
      Reachable rts (makeBooking ⟨rts, bs⟩ today now req).1.bookings
  | cancel : ∀ {bs} (bid : Int),
      Reachable rts bs →
      Reachable rts (cancelBooking ⟨rts, bs⟩ bid).1.bookings

/-!
Theorems.
-/

/-- C2: the claim says a `CreateBooking` with `check_in` equal to an
existing confirmed booking's `check_out` on the same unit succeeds
(half-open overlap, back-to-back stays allowed).  The code instead
compares with `db_co >= checkin_dt` (main.py:198, main.py:354), so the
back-to-back request `[12, 14)` against the stored `[10, 12)` on the
single unit 201 is rejected as unavailable, even though the two ranges
do not overlap as half-open intervals. -/
theorem c2_back_to_back_rejected :
    makeBooking dbBtb 10 7 reqEx = (dbBtb, .error .notAvailable) ∧
    ¬(bkPrior.check_in_date < 14 ∧ (12 : Int) < bkPrior.check_out_date) :=
  ⟨rfl, by decide⟩

/-- C4: the claim says no interleaving of concurrent `make_booking`
callers commits two confirmed bookings for the same unit with
overlapping ranges.  `raceFinal` is one realizable event-loop
interleaving of two handlers (each phase boundary is an `await` in the
source); it ends with two confirmed bookings of unit 201 for the same
range `[12, 14)`, under distinct booking ids (so the unique index on
`booking_id` does not stop the second insert). -/
theorem c4_allocation_race :
    raceFinal.bookings = [raceBk1, raceBk2] ∧
    raceBk1.booking_id ≠ raceBk2.booking_id ∧
    raceBk1.status = "confirmed" ∧ raceBk2.status = "confirmed" ∧
    raceBk1.room_no = raceBk2.room_no ∧
    raceBk1.check_in_date < raceBk2.check_out_date ∧
    raceBk2.check_in_date < raceBk1.check_out_date ∧
    ¬ noConflict raceBk1 raceBk2 :=
  ⟨rfl, by decide, rfl, rfl, rfl, by decide, by decide,
    fun h => h rfl rfl rfl ⟨by decide, by decide⟩⟩

/-- C6: the claim says `make_booking` rejects with "No rooms available"
iff no unit of the room type is free.  When the first free unit is the
integer 0, the Python truthiness test `if not selected_room:`
(main.py:362) treats it as "no unit selected": with catalog `[rtZero]`
(single unit 0) and an empty ledger, the otherwise valid request is
rejected with `noRoomsAvailable` although unit 0 is free for the
range. -/
theorem c6_unit_zero_rejected :
    makeBooking dbZero 10 7 reqEx = (dbZero, .error .noRoomsAvailable) ∧
    roomFree dbZero.bookings 0 12 14 = true :=
  ⟨rfl, rfl⟩

/-- A successful read phase selected a unit that is free for the
requested range, and that unit is not numbered 0. -/
theorem mbSelect_ok {db : DB} {today : Int} {req : BookingRequest} {s : SelInfo}
    (h : mbSelect db today req = .ok s) :
    roomFree db.bookings s.room s.ci s.co = true ∧ s.room ≠ 0 := by
  unfold mbSelect at h
  repeat' split at h
  all_goals try exact Except.noConfusion h
  all_goals injection h with h'
  all_goals subst h'
  all_goals rename_i x r hfind hr
  all_goals dsimp only
  all_goals have hp := List.find?_some hfind
  all_goals exact ⟨hp, hr⟩

/-- Characterization of a successful `make_booking` call: the read
phase succeeded, the committed booking is the record built from the
selection and the freshly issued id, and the new state appends exactly
that record. -/
theorem makeBooking_ok {db : DB} {today : Int} {now : Nat} {req : BookingRequest}
    {db' : DB} {bk : Booking}
    (h : makeBooking db today now req = (db', .ok bk)) :
    ∃ s, mbSelect db today req = .ok s ∧
      bk = mkRecord now req s (newBookingId db.bookings) ∧
      db' = { db with bookings := db.bookings ++ [bk] } := by
  unfold makeBooking at h
  split at h
  · injection h with h1 h2
    exact Except.noConfusion h2
  · next s hs =>
    injection h with h1 h2
    injection h2 with h2
    exact ⟨s, hs, h2.symm, by rw [← h1, h2]⟩

/-- A rejected `make_booking` call leaves the state exactly as it was. -/
theorem makeBooking_err {db : DB} {today : Int} {now : Nat} {req : BookingRequest}
    {db' : DB} {e : BErr}
    (h : makeBooking db today now req = (db', .error e)) :
    db' = db ∧ mbSelect db today req = .error e := by
  unfold makeBooking at h
  split at h
  · next e' he =>
    injection h with h1 h2
    injection h2 with h2
    exact ⟨h1.symm, by rw [he, h2]⟩
  · injection h with h1 h2
    exact Except.noConfusion h2

/-- C7: every rejected `CreateBooking` call leaves the booking ledger
(and the catalog) completely unchanged, and a successful one appends
exactly the one committed record: booking-id issuance and insertion
succeed or fail together. -/
theorem c7_rejection_leaves_state_unchanged :
    ∀ (db : DB) (today : Int) (now : Nat) (req : BookingRequest),
      (∀ e, (makeBooking db today now req).2 = .error e →
        (makeBooking db today now req).1 = db) ∧
      (∀ bk, (makeBooking db today now req).2 = .ok bk →
        (makeBooking db today now req).1 =
          { db with bookings := db.bookings ++ [bk] }) := by
  intro db today now req
  constructor
  · intro e he
    exact (makeBooking_err (Prod.ext rfl he)).1
  · intro bk hbk
    obtain ⟨s, -, -, hdb⟩ := makeBooking_ok (Prod.ext rfl hbk)
    exact hdb

/-- C7 witness: a request with an unparseable check-in date against the
ledger holding `bkPrior` is rejected and the state is unchanged. -/
theorem c7_witness : (makeBooking dbBtb 10 7 reqBadDate).1 = dbBtb :=
  (c7_rejection_leaves_state_unchanged dbBtb 10 7 reqBadDate).1 .invalidDateFormat rfl

/-- The seed of a left fold by `max` is a lower bound of the result. -/
theorem foldl_max_le_self (l : List Int) : ∀ a : Int, a ≤ l.foldl max a := by
  induction l with
  | nil => intro a; exact le_refl a
  | cons x xs ih =>
    intro a
    exact le_trans (le_max_left a x) (ih (max a x))

/-- Every list element is bounded by the left fold by `max`. -/
theorem foldl_max_le_mem (l : List Int) : ∀ a x, x ∈ l → x ≤ l.foldl max a := by
  induction l with
  | nil => intro a x hx; cases hx
  | cons y ys ih =>
    intro a x hx
    rcases List.mem_cons.1 hx with h | h
    · subst h
      exact le_trans (le_max_right a x) (foldl_max_le_self ys (max a x))
    · exact ih (max a y) x h

/-- The left fold by `max` is the seed or one of the list elements. -/
theorem foldl_max_eq (l : List Int) : ∀ a, l.foldl max a = a ∨ l.foldl max a ∈ l := by
  induction l with
  | nil => intro a; exact Or.inl rfl
  | cons x xs ih =>
    intro a
    rcases ih (max a x) with h | h
    · rcases max_cases a x with ⟨hm, -⟩ | ⟨hm, -⟩
      · exact Or.inl (by rw [List.foldl_cons, h, hm])
      · exact Or.inr (by rw [List.foldl_cons, h, hm]; exact List.mem_cons_self x xs)
    · exact Or.inr (List.mem_cons_of_mem x h)

/-- `newBookingId` returns 1 on an empty collection and otherwise one
more than the id of some stored booking, exceeding every stored id. -/
theorem newBookingId_spec (bs : List Booking) :
    (bs = [] → newBookingId bs = 1) ∧
    (∀ b ∈ bs, b.booking_id < newBookingId bs) ∧
    (bs ≠ [] → ∃ b ∈ bs, newBookingId bs = b.booking_id + 1) := by
  cases bs with
  | nil => exact ⟨fun _ => rfl, fun b hb => absurd hb (List.not_mem_nil b), fun h => absurd rfl h⟩
  | cons b0 rest =>
    refine ⟨fun h => List.noConfusion h, ?_, fun _ => ?_⟩
    · intro b hb
      show b.booking_id < (List.map (fun b => b.booking_id) rest).foldl max b0.booking_id + 1
      rcases List.mem_cons.1 hb with h | h
      · subst h
        exact lt_of_le_of_lt (foldl_max_le_self _ _) (lt_add_one _)
      · exact lt_of_le_of_lt
          (foldl_max_le_mem _ _ _ (List.mem_map_of_mem (fun b => b.booking_id) h))
          (lt_add_one _)
    · show ∃ b ∈ b0 :: rest,
        (List.map (fun b => b.booking_id) rest).foldl max b0.booking_id + 1 = b.booking_id + 1
      rcases foldl_max_eq (List.map (fun b => b.booking_id) rest) b0.booking_id with h | h
      · exact ⟨b0, List.mem_cons_self b0 rest, by rw [h]⟩
      · obtain ⟨b, hb, hbid⟩ := List.mem_map.1 h
        exact ⟨b, List.mem_cons_of_mem b0 hb, by rw [← hbid]⟩

/-- C5: in sequential execution every successful `CreateBooking`
assigns `booking_id = 1` on an empty ledger, otherwise one more than
the highest booking id currently stored (bookings are never deleted,
only cancelled, so this is the highest id ever issued), and the new id
strictly exceeds every stored id. -/
theorem c5_booking_id_issuance :
    ∀ (db : DB) (today : Int) (now : Nat) (req : BookingRequest) (db' : DB) (bk : Booking),
      makeBooking db today now req = (db', .ok bk) →
      (db.bookings = [] → bk.booking_id = 1) ∧
      (∀ b ∈ db.bookings, b.booking_id < bk.booking_id) ∧
      (db.bookings ≠ [] → ∃ b ∈ db.bookings, bk.booking_id = b.booking_id + 1) := by
  intro db today now req db' bk h
  obtain ⟨s, -, hbk, -⟩ := makeBooking_ok h
  have hid : bk.booking_id = newBookingId db.bookings := by rw [hbk]; rfl
  rw [hid]
  exact newBookingId_spec db.bookings

/-- C5 witness: the second sequential booking (unit 102, id 2) gets an
id strictly greater than the stored booking's id 1. -/
theorem c5_witness : bkEx.booking_id < bkEx2.booking_id :=
  (c5_booking_id_issuance ⟨[rtEx], [bkEx]⟩ 10 8 reqEx2 ⟨[rtEx], [bkEx, bkEx2]⟩ bkEx2 rfl).2.1
    bkEx (by simp)

/-- C3 counterexample: cancelling the already-cancelled booking 1
succeeds again — `cancel_booking` (main.py:424-431) has no
already-cancelled check, so the second cancel reports plain success
(and re-sets the status, leaving the record unchanged). -/
theorem c3_double_cancel_succeeds :
    cancelBooking dbCancelled 1 = (dbCancelled, .ok) := rfl

/-- `update_one` on a collection split as `l1 ++ b :: l2`, where `b` is
the first document matching `bid`: only `b`'s status changes. -/
theorem cancelFirst_of_clean (bid : Int) :
    ∀ (l1 : List Booking) (b : Booking) (l2 : List Booking),
      b.booking_id = bid → (∀ x ∈ l1, x.booking_id ≠ bid) →
      cancelFirst bid (l1 ++ b :: l2) = l1 ++ { b with status := "cancelled" } :: l2 := by
  intro l1
  induction l1 with
  | nil =>
    intro b l2 hb _
    simp [cancelFirst, hb]
  | cons x xs ih =>
    intro b l2 hb hcl
    have hx : x.booking_id ≠ bid := hcl x (List.mem_cons_self x xs)
    simp only [List.cons_append, cancelFirst, if_neg hx]
    show x :: cancelFirst bid (xs ++ b :: l2) =
      x :: (xs ++ { b with status := "cancelled" } :: l2)
    rw [ih b l2 hb (fun y hy => hcl y (List.mem_cons_of_mem x hy))]

/-- After `cancelFirst`, some document with the requested id is stored
with status cancelled (when a match existed). -/
theorem cancelFirst_mem_cancelled (bid : Int) :
    ∀ bs : List Booking, (∃ b ∈ bs, b.booking_id = bid) →
      ∃ b ∈ cancelFirst bid bs, b.booking_id = bid ∧ b.status = "cancelled" := by
  intro bs
  induction bs with
  | nil => rintro ⟨b, hb, -⟩; cases hb
  | cons x xs ih =>
    rintro ⟨b, hb, hbid⟩
    by_cases hx : x.booking_id = bid
    · exact ⟨{ x with status := "cancelled" },
        by simp [cancelFirst, hx], hx, rfl⟩
    · rcases List.mem_cons.1 hb with h | h
      · exact absurd (h ▸ hbid) hx
      · obtain ⟨c, hc, hcp⟩ := ih ⟨b, h, hbid⟩
        exact ⟨c, by simp [cancelFirst, hx]; exact Or.inr hc, hcp⟩

/-- C3 amended: `cancel_booking` returns `notFound` exactly when no
booking has the requested id (leaving the state unchanged), and
reports plain success exactly when one does - including when that
booking is already cancelled, in which case the cancel succeeds again
as a no-op; the source has no `AlreadyCancelled` outcome.  On success
the first matching booking is stored cancelled. -/
theorem c3_cancel_behaviour :
    ∀ (db : DB) (bid : Int),
      ((cancelBooking db bid).2 = .notFound ↔ ∀ b ∈ db.bookings, b.booking_id ≠ bid) ∧
      ((cancelBooking db bid).2 = .notFound → (cancelBooking db bid).1 = db) ∧
      ((cancelBooking db bid).2 = .ok ↔ ∃ b ∈ db.bookings, b.booking_id = bid) ∧
      ((∃ b ∈ db.bookings, b.booking_id = bid) →
        ∃ b ∈ (cancelBooking db bid).1.bookings, b.booking_id = bid ∧ b.status = "cancelled") := by
  intro db bid
  rcases hany : db.bookings.any (fun b => b.booking_id == bid) with _ | _
  · have hall : ∀ b ∈ db.bookings, b.booking_id ≠ bid := by
      intro b hb
      have := List.any_eq_false.1 hany b hb
      simpa using this
    refine ⟨by simp [cancelBooking, hany]; exact hall, by simp [cancelBooking, hany], ?_, ?_⟩
    · simp only [cancelBooking, hany]
      constructor
      · intro h; cases h
      · rintro ⟨b, hb, hbid⟩; exact absurd hbid (hall b hb)
    · rintro ⟨b, hb, hbid⟩; exact absurd hbid (hall b hb)
  · have hex : ∃ b ∈ db.bookings, b.booking_id = bid := by
      obtain ⟨b, hb, hbid⟩ := List.any_eq_true.1 hany
      exact ⟨b, hb, by simpa using hbid⟩
    refine ⟨?_, ?_, by simp [cancelBooking, hany, hex], ?_⟩
    · simp only [cancelBooking, hany]
      constructor
      · intro h; cases h
      · intro hall
        obtain ⟨b, hb, hbid⟩ := hex
        exact absurd hbid (hall b hb)
    · intro h
      simp only [cancelBooking, hany] at h
      cases h
    · intro _
      simp only [cancelBooking, hany]
      exact cancelFirst_mem_cancelled bid db.bookings hex

/-- C3 witness: on the ledger holding only the cancelled booking 1,
cancelling id 2 reports not-found and cancelling id 1 reports
success. -/
theorem c3_witness :
    (cancelBooking dbCancelled 2).2 = CancelResult.notFound ∧
    (cancelBooking dbCancelled 1).2 = CancelResult.ok :=
  ⟨(c3_cancel_behaviour dbCancelled 2).1.2 (by decide),
   (c3_cancel_behaviour dbCancelled 1).2.2.1.2 ⟨bkCancelled, List.mem_cons_self bkCancelled [], rfl⟩⟩

/-- C9: a successful `CancelBooking(bid)` rewrites only the status
field of the first booking whose id is `bid`: the catalog, every other
booking, and every other field of that booking are returned
unchanged. -/
theorem c9_cancel_frame :
    ∀ (db : DB) (bid : Int) (l1 : List Booking) (b : Booking) (l2 : List Booking),
      db.bookings = l1 ++ b :: l2 → b.booking_id = bid →
      (∀ x ∈ l1, x.booking_id ≠ bid) →
      cancelBooking db bid =
        (⟨db.roomTypes, l1 ++ { b with status := "cancelled" } :: l2⟩, .ok) := by
  intro db bid l1 b l2 hsplit hb hcl
  have hany : db.bookings.any (fun x => x.booking_id == bid) = true := by
    rw [hsplit]
    simp [hb]
  unfold cancelBooking
  rw [if_pos hany, hsplit, cancelFirst_of_clean bid l1 b l2 hb hcl]

/-- C9 witness: cancelling booking 1 in the one-booking ledger yields
exactly that ledger with the booking's status flipped. -/
theorem c9_witness :
    cancelBooking dbBtb 1 =
      (⟨[rtOne], [{ bkPrior with status := "cancelled" }]⟩, .ok) :=
  c9_cancel_frame dbBtb 1 [] bkPrior [] rfl rfl (by simp)

/-- The two status strings differ. -/
theorem cancelled_ne_confirmed : ("cancelled" : String) ≠ "confirmed" := by decide

/-- A cancelled record never violates the invariant (right side). -/
theorem noConflict_cancelled_right (x b : Booking) :
    noConflict x { b with status := "cancelled" } :=
  fun _ h2 _ => absurd h2 cancelled_ne_confirmed

/-- A cancelled record never violates the invariant (left side). -/
theorem noConflict_cancelled_left (x b : Booking) :
    noConflict { b with status := "cancelled" } x :=
  fun h1 _ _ => absurd h1 cancelled_ne_confirmed

/-- A pointwise property survives `cancelFirst` when it holds for every
original element and is preserved by the cancelled-status update. -/
theorem cancelFirst_forall (bid : Int) {P : Booking → Prop}
    (hP : ∀ b : Booking, P b → P { b with status := "cancelled" }) :
    ∀ bs : List Booking, (∀ x ∈ bs, P x) → ∀ x ∈ cancelFirst bid bs, P x := by
  intro bs
  induction bs with
  | nil => intro _ x hx; cases hx
  | cons b rest ih =>
    intro hall x hx
    unfold cancelFirst at hx
    split at hx
    · rcases List.mem_cons.1 hx with h | h
      · rw [h]; exact hP b (hall b (List.mem_cons_self b rest))
      · exact hall x (List.mem_cons_of_mem b h)
    · rcases List.mem_cons.1 hx with h | h
      · rw [h]; exact hall b (List.mem_cons_self b rest)
      · exact ih (fun y hy => hall y (List.mem_cons_of_mem b hy)) x h

/-- `cancelFirst` preserves the no-conflict invariant. -/
theorem pairwise_cancelFirst (bid : Int) :
    ∀ bs : List Booking, List.Pairwise noConflict bs →
      List.Pairwise noConflict (cancelFirst bid bs) := by
  intro bs
  induction bs with
  | nil => intro _; exact List.Pairwise.nil
  | cons b rest ih =>
    intro hp
    rw [List.pairwise_cons] at hp
    unfold cancelFirst
    split
    · exact List.pairwise_cons.2
        ⟨fun x hx => noConflict_cancelled_left x b, hp.2⟩
    · exact List.pairwise_cons.2
        ⟨cancelFirst_forall bid (fun c _ => noConflict_cancelled_right b c) rest hp.1, ih hp.2⟩

/-- `cancelFirst` keeps every record: the collection size is unchanged. -/
theorem cancelFirst_length (bid : Int) :
    ∀ bs : List Booking, (cancelFirst bid bs).length = bs.length := by
  intro bs
  induction bs with
  | nil => rfl
  | cons b rest ih =>
    unfold cancelFirst
    split
    · rfl
    · simp [ih]

/-- C1: from an empty ledger, every state reachable by sequential
`CreateBooking` / `CancelBooking` calls has no two confirmed bookings
on the same physical unit with overlapping half-open date ranges
(cancelled bookings are excluded), and cancellation never removes a
record - cancelled bookings stay stored as history. -/
theorem c1_no_double_booking :
    (∀ (rts : List RoomType) (bs : List Booking),
      Reachable rts bs → List.Pairwise noConflict bs) ∧
    (∀ (db : DB) (bid : Int),
      (cancelBooking db bid).1.bookings.length = db.bookings.length) := by
  constructor
  · intro rts bs h
    induction h with
    | init => exact List.Pairwise.nil
    | book today now req hreach ih =>
      rename_i bs'
      rcases hmk : makeBooking ⟨rts, bs'⟩ today now req with ⟨db', out⟩
      cases out with
      | error e =>
        dsimp only
        rw [(makeBooking_err hmk).1]
        exact ih
      | ok bk =>
        obtain ⟨s, hs, hbk, hdb⟩ := makeBooking_ok hmk
        dsimp only
        rw [hdb]
        dsimp only
        rw [List.pairwise_append]
        refine ⟨ih, List.pairwise_singleton _ _, ?_⟩
        intro a ha b hb
        rw [List.mem_singleton] at hb
        subst hb
        subst hbk
        intro hca hcb hroom hov
        obtain ⟨hfree, -⟩ := mbSelect_ok hs
        have hany : ∀ x ∈ bs', ¬((x.room_no == s.room && x.status == "confirmed" &&
            bookingBlocks x s.ci s.co) = true) :=
          List.any_eq_false.1 (by simpa [roomFree] using hfree)
        apply hany a ha
        simp only [mkRecord] at hroom hov
        simp [bookingBlocks, hroom, hca, hov.1, le_of_lt hov.2]
    | cancel bid hreach ih =>
      rename_i bs'
      unfold cancelBooking
      split
      · dsimp only
        exact pairwise_cancelFirst bid bs' ih
      · exact ih
  · intro db bid
    unfold cancelBooking
    split
    · dsimp only
      exact cancelFirst_length bid db.bookings
    · rfl

/-- C1 witness: the invariant holds for the concrete reachable state
obtained by one successful booking from the empty ledger. -/
theorem c1_witness :
    List.Pairwise noConflict ((makeBooking ⟨[rtEx], []⟩ 10 7 reqEx).1.bookings) :=
  c1_no_double_booking.1 [rtEx] _ (Reachable.book 10 7 reqEx Reachable.init)

/-- Python's ASCII `lower()` is idempotent per character. -/
theorem asciiLower_idem (c : Nat) : asciiLower (asciiLower c) = asciiLower c := by
  unfold asciiLower
  split_ifs <;> omega

/-- Lower-casing a character-code list is idempotent. -/
theorem map_asciiLower_idem (l : List Nat) :
    (l.map asciiLower).map asciiLower = l.map asciiLower := by
  rw [List.map_map]
  have h : asciiLower ∘ asciiLower = asciiLower := funext asciiLower_idem
  rw [h]

/-- Every reachable ledger stores emails already lower-cased
(`make_booking` stores `data.email.lower()`, main.py:381). -/
theorem reachable_emails_lower (rts : List RoomType) (bs : List Booking)
    (h : Reachable rts bs) : ∀ b ∈ bs, b.email.map asciiLower = b.email := by
  induction h with
  | init => intro b hb; cases hb
  | book today now req hreach ih =>
    rename_i bs'
    rcases hmk : makeBooking ⟨rts, bs'⟩ today now req with ⟨db', out⟩
    cases out with
    | error e =>
      dsimp only
      rw [(makeBooking_err hmk).1]
      exact ih
    | ok bk =>
      obtain ⟨s, hs, hbk, hdb⟩ := makeBooking_ok hmk
      dsimp only
      rw [hdb]
      dsimp only
      intro b hb
      rcases List.mem_append.1 hb with hmem | hmem
      · exact ih b hmem
      · rw [List.mem_singleton] at hmem
        subst hmem
        subst hbk
        exact map_asciiLower_idem req.email
  | cancel bid hreach ih =>
    rename_i bs'
    unfold cancelBooking
    split
    · dsimp only
      exact cancelFirst_forall bid (fun b hb => hb) bs' ih
    · exact ih

/-- C10: on ledgers whose stored emails are lower-cased (which every
reachable ledger is), `get_bookings_by_email` fails with the
no-bookings-found error exactly when no stored booking's lower-cased
email equals the lower-cased query, never returns an empty list on
success, and returns a (non-empty) list exactly when some stored
booking matches the lower-cased query. -/
theorem c10_email_lookup :
    (∀ (rts : List RoomType) (bs : List Booking), Reachable rts bs →
      ∀ b ∈ bs, b.email.map asciiLower = b.email) ∧
    (∀ (db : DB) (q : List Nat),
      (∀ b ∈ db.bookings, b.email.map asciiLower = b.email) →
      ((getBookingsByEmail db q = .error .noBookingsFound ↔
          ∀ b ∈ db.bookings, b.email.map asciiLower ≠ q.map asciiLower) ∧
       (∀ l, getBookingsByEmail db q = .ok l → l ≠ []) ∧
       ((∃ l, getBookingsByEmail db q = .ok l) ↔
          ∃ b ∈ db.bookings, b.email.map asciiLower = q.map asciiLower))) := by
  refine ⟨reachable_emails_lower, ?_⟩
  intro db q hnorm
  unfold getBookingsByEmail
  split
  · next hempty =>
    rw [List.filter_eq_nil_iff] at hempty
    refine ⟨?_, ?_, ?_⟩
    · simp only [true_iff, iff_true]
      intro b hb
      have := hempty b hb
      rw [decide_eq_true_eq] at this
      rw [hnorm b hb]
      exact this
    · intro l hl; cases hl
    · constructor
      · rintro ⟨l, hl⟩; cases hl
      · rintro ⟨b, hb, hmatch⟩
        have := hempty b hb
        rw [decide_eq_true_eq] at this
        rw [hnorm b hb] at hmatch
        exact absurd hmatch this
  · next hne =>
    refine ⟨?_, ?_, ?_⟩
    · constructor
      · intro h; cases h
      · intro hall
        exfalso
        apply hne
        rw [List.filter_eq_nil_iff]
        intro b hb
        rw [decide_eq_true_eq]
        intro heq
        exact hall b hb (by rw [hnorm b hb]; exact heq)
    · intro l hl
      injection hl with hl
      rw [← hl]
      exact hne
    · constructor
      · intro _
        obtain ⟨b, hb⟩ := List.exists_mem_of_ne_nil _ hne
        have hmem := List.mem_filter.1 hb
        refine ⟨b, hmem.1, ?_⟩
        have := hmem.2
        rw [decide_eq_true_eq] at this
        rw [hnorm b hmem.1]
        exact this
      · intro _
        exact ⟨_, rfl⟩

/-- C10 witness: querying the one-booking ledger (stored email code
[98]) for the unmatched email [99] reports the no-bookings-found
error. -/
theorem c10_witness :
    getBookingsByEmail dbBtb [99] = Except.error .noBookingsFound :=
  ((c10_email_lookup.2 dbBtb [99] (by decide)).1).2 (by decide)

/-- Lexicographic comparison of equal-length prefixes decomposes. -/
theorem strLt_append_eqlen :
    ∀ (a b c d : List Nat), a.length = b.length →
      strLt (a ++ c) (b ++ d) = if a = b then strLt c d else strLt a b := by
  intro a
  induction a with
  | nil =>
    intro b c d hlen
    cases b with
    | nil => simp [strLt]
    | cons y ys => simp at hlen
  | cons x xs ih =>
    intro b c d hlen
    cases b with
    | nil => simp at hlen
    | cons y ys =>
      have hl : xs.length = ys.length := by simpa using hlen
      by_cases hxy : x < y
      · have hne : x :: xs ≠ y :: ys := by simp; intro h; omega
        simp [strLt, hxy, hne]
      · by_cases hxe : x = y
        · subst hxe
          by_cases hxs : xs = ys
          · subst hxs
            simp [strLt, hxy, ih xs c d rfl]
          · simp [strLt, hxy, hxs, ih ys c d hl]
        · have hne : x :: xs ≠ y :: ys := by simp [hxe]
          simp [strLt, hxy, hxe, hne]

/-- Two-digit zero-padded blocks are equal iff the numbers are. -/
theorem pad2_eq_iff {n m : Nat} :
    pad2 n = pad2 m ↔ n = m := by
  unfold pad2
  simp only [List.cons.injEq, and_true]
  omega

/-- Four-digit zero-padded blocks of numbers below 10000 are equal iff
the numbers are. -/
theorem pad4_eq_iff {n m : Nat} (hn : n < 10000) (hm : m < 10000) :
    pad4 n = pad4 m ↔ n = m := by
  unfold pad4
  simp only [List.cons.injEq, and_true]
  omega

/-- Lexicographic order on two-digit blocks is numeric order. -/
theorem pad2_lt (n m : Nat) :
    strLt (pad2 n) (pad2 m) = decide (n < m) := by
  unfold pad2
  simp only [strLt]
  split_ifs <;> simp <;> omega

/-- Lexicographic order on four-digit blocks is numeric order. -/
theorem pad4_lt (n m : Nat) :
    strLt (pad4 n) (pad4 m) = decide (n < m) := by
  unfold pad4
  simp only [strLt]
  split_ifs <;> simp <;> omega

/-- A shared leading character cancels in lexicographic comparison. -/
theorem strLt_cons_same (x : Nat) (a b : List Nat) :
    strLt (x :: a) (x :: b) = strLt a b := by
  simp [strLt]

/-- On canonically serialized dates, MongoDB string order coincides
with the order of the parsed dates. -/
theorem serDate_lt (a b : DateYMD) (ha : validYMD a) (hb : validYMD b) :
    strLt (serDate a) (serDate b) = dateLt a b := by
  obtain ⟨hay, ham, had⟩ := ha
  obtain ⟨hby, hbm, hbd⟩ := hb
  unfold serDate dateLt
  rw [strLt_append_eqlen (pad4 a.y) (pad4 b.y) _ _ rfl, strLt_cons_same,
      strLt_append_eqlen (pad2 a.m) (pad2 b.m) _ _ rfl, strLt_cons_same]
  simp only [pad4_eq_iff hay hby, pad2_eq_iff, pad2_lt, pad4_lt]
  split_ifs <;> simp_all

/-- C8: for dates serialized in zero-padded `YYYY-MM-DD` form, the
availability endpoint's string-comparison filter (main.py:267-274)
decides exactly the relation the booking path's parsed-datetime
comparison (main.py:198, main.py:354) decides, because lexicographic
order on those strings coincides with date order. -/
theorem c8_string_filter_matches_parsed :
    ∀ ci co rci rco : DateYMD,
      validYMD ci → validYMD co → validYMD rci → validYMD rco →
      strOverlapFilter (serDate ci) (serDate co) (serDate rci) (serDate rco) =
        parsedOverlap ci co rci rco := by
  intro ci co rci rco h1 h2 h3 h4
  unfold strOverlapFilter parsedOverlap
  rw [serDate_lt ci rco h1 h4, serDate_lt co rci h2 h3]

/-- C8 witness: both overlap tests agree on the concrete pair
`[2024-06-01, 2024-06-03)` vs `[2024-06-02, 2024-06-05)`. -/
theorem c8_witness :
    strOverlapFilter (serDate ⟨2024, 6, 1⟩) (serDate ⟨2024, 6, 3⟩)
        (serDate ⟨2024, 6, 2⟩) (serDate ⟨2024, 6, 5⟩) =
      parsedOverlap ⟨2024, 6, 1⟩ ⟨2024, 6, 3⟩ ⟨2024, 6, 2⟩ ⟨2024, 6, 5⟩ :=
  c8_string_filter_matches_parsed ⟨2024, 6, 1⟩ ⟨2024, 6, 3⟩ ⟨2024, 6, 2⟩ ⟨2024, 6, 5⟩
    ⟨by decide, by decide, by decide⟩ ⟨by decide, by decide, by decide⟩
    ⟨by decide, by decide, by decide⟩ ⟨by decide, by decide, by decide⟩
